import Mathlib

/-!
Shallow embedding of the plumadriver session engine (Session.js) and browser
adapter (Browser.ts), used to check the natural-language specification against
the code.  JavaScript objects are modelled as ordered association lists from
string keys to a small JavaScript value type; JS exceptions become `Except`
errors.  Each embedded definition mirrors one source function.
-/

/-- A small model of JavaScript values as they flow through the session engine.
`num` carries integer-valued numbers; `nonIntNum` stands for a finite
non-integer number (every such number is nonzero, hence truthy);
`nan` is the NaN produced e.g. by `getTime()` on an Invalid Date. -/
inductive JsVal where
  | str (s : String)
  | num (n : Int)
  | nonIntNum
  | nan
  | bool (b : Bool)
  | obj (fields : List (String × JsVal))
  | undef
  | null

/-- A JavaScript object: ordered list of own enumerable properties, as
iterated by `Object.keys`. -/
abbrev JsObj := List (String × JsVal)

/-- JavaScript truthiness. NaN, `0`, the empty string, `undefined` and `null`
are falsy; objects and non-integer numbers (necessarily nonzero) are truthy. -/
def truthy : JsVal → Bool
  | JsVal.str s => s ≠ ""
  | JsVal.num n => n ≠ 0
  | JsVal.nonIntNum => true
  | JsVal.nan => false
  | JsVal.bool b => b
  | JsVal.obj _ => true
  | JsVal.undef => false
  | JsVal.null => false

/-- Property read `o[k]`: the first binding for `k`, if any. -/
def lookupVal (k : String) : JsObj → Option JsVal
  | [] => none
  | kv :: rest => if kv.1 = k then some kv.2 else lookupVal k rest

/-- Property write `o[k] = v`: overwrite the existing binding in place,
otherwise append a new one (JS insertion-order semantics). -/
def setKey : JsObj → String → JsVal → JsObj
  | [], k, v => [(k, v)]
  | kv :: rest, k, v => if kv.1 = k then (k, v) :: rest else kv :: setKey rest k v

/-- `Object.prototype.hasOwnProperty.call(o, k)`. -/
def hasKey (o : JsObj) (k : String) : Bool :=
  o.any fun kv => kv.1 == k

/-- `delete o[k]` (removes every binding for `k`; JS objects have at most one). -/
def deleteKey (o : JsObj) (k : String) : JsObj :=
  o.filter fun kv => kv.1 != k

/-- JavaScript strict equality `===` restricted to the values compared by the
session engine (primitives against primitives; the engine only ever compares
against string and boolean constants, for which this model is exact).
Two object references are conservatively unequal, as are two unspecified
non-integer numbers; `NaN === NaN` is false in JavaScript. -/
def jsStrictEq : JsVal → JsVal → Bool
  | JsVal.str a, JsVal.str b => a == b
  | JsVal.num a, JsVal.num b => a == b
  | JsVal.bool a, JsVal.bool b => a == b
  | JsVal.undef, JsVal.undef => true
  | JsVal.null, JsVal.null => true
  | _, _ => false

/-- The error classes thrown by the session engine
(`src/Error/errors` plus the generic unknown error). -/
inductive JsErr where
  | invalidArgument
  | sessionNotCreated
  | internalServerError
  | unableToSetCookie
  deriving DecidableEq, Repr

/-! ### Timeouts store (Session.setTimeouts, Session.js lines 116-129) -/

/-- The session timeouts record `{script, pageLoad, implicit}`. -/
structure Timeouts where
  script : Int
  pageLoad : Int
  implicit : Int
  deriving DecidableEq, Repr

/-- Modelled from the spec: `CapabilityValidator.validateTimeouts` is not under
`src/` (only its caller `Session.setTimeouts` is).  Per spec section 4.2 a
timeouts field must be one of `script`/`pageLoad`/`implicit` and an integer in
`[0, 2^53 - 1]` (`Number.MAX_SAFE_INTEGER`). -/
def validateTimeouts (key : String) (value : JsVal) : Bool :=
  (key == "script" || key == "pageLoad" || key == "implicit") &&
    (match value with
     | JsVal.num n => decide (0 ≤ n) && decide (n ≤ 2 ^ 53 - 1)
     | _ => false)

/-- The second `forEach` of `Session.setTimeouts`: write every provided field
onto the current record.  Only runs after every entry validated, so the
wildcard row (non-integer value or unknown key) is unreachable there. -/
def applyTimeouts (cur : Timeouts) : List (String × JsVal) → Timeouts
  | [] => cur
  | (k, JsVal.num n) :: rest =>
    applyTimeouts
      (if k = "script" then { cur with script := n }
       else if k = "pageLoad" then { cur with pageLoad := n }
       else if k = "implicit" then { cur with implicit := n }
       else cur) rest
  | _ :: rest => applyTimeouts cur rest

/-- `Session.setTimeouts`: first loop validates every provided field and throws
`InvalidArgument` at the first invalid one (before anything is written); the
second loop then applies all provided fields. -/
def setTimeouts (cur : Timeouts) (ts : List (String × JsVal)) : Except JsErr Timeouts :=
  match ts.find? (fun kv => !(validateTimeouts kv.1 kv.2)) with
  | some _ => Except.error JsErr.invalidArgument
  | none => Except.ok (applyTimeouts cur ts)

/-- The value the three-field record ends up holding for key `k`:
the provided integer if `k` is present, otherwise the prior value. -/
def timeoutField (ts : List (String × JsVal)) (k : String) (prior : Int) : Int :=
  match lookupVal k ts with
  | some (JsVal.num n) => n
  | _ => prior

/-! ### Capability negotiation (Session.processCapabilities and helpers,
Session.js lines 195-330) -/

/-- The recognized ("default") capability names validated in `alwaysMatch`
(Session.js lines 199-208). -/
def defaultCapabilities : List String :=
  ["acceptInsecureCerts", "browserName", "browserVersion", "platformName",
   "pageLoadStrategy", "proxy", "timeouts", "unhandledPromptBehaviour"]

/-- Modelled from the spec: `CapabilityValidator.validate` is not under `src/`
(only its callers in `Session.processCapabilities` are).  Per spec section
4.3.2: booleans for `acceptInsecureCerts`/`setWindowRect`; strings for the
browser/platform identifiers; the known enum for `pageLoadStrategy`; a
well-formed object for `proxy`; a well-formed timeouts object for `timeouts`;
unrecognized keys are carried through unvalidated (always valid).  Spec
section 8 pins down that an arbitrary string such as `"not-pluma"` passes
`browserName` validation and only fails later at the matching stage. -/
def validateCapability (value : JsVal) (key : String) : Bool :=
  if key = "acceptInsecureCerts" then
    match value with | JsVal.bool _ => true | _ => false
  else if key = "setWindowRect" then
    match value with | JsVal.bool _ => true | _ => false
  else if key = "browserName" || key = "browserVersion" ||
      key = "platformName" || key = "unhandledPromptBehaviour" then
    match value with | JsVal.str _ => true | _ => false
  else if key = "pageLoadStrategy" then
    match value with
    | JsVal.str s => s == "normal" || s == "eager" || s == "none"
    | _ => false
  else if key = "proxy" then
    match value with | JsVal.obj _ => true | _ => false
  else if key = "timeouts" then
    match value with
    | JsVal.obj fields => fields.all fun kv => validateTimeouts kv.1 kv.2
    | _ => false
  else true

/-- One iteration of the `alwaysMatch` validation loop (Session.js lines
223-232): a recognized key present in `alwaysMatch` is validated — collected
if valid, `InvalidArgument` otherwise — and skipped when absent. -/
def aMStep (alwaysMatch : JsObj) (acc : JsObj) (key : String) : Except JsErr JsObj :=
  match lookupVal key alwaysMatch with
  | some v =>
    if validateCapability v key then Except.ok (acc ++ [(key, v)])
    else Except.error JsErr.invalidArgument
  | none => Except.ok acc

/-- Validation of `alwaysMatch` (Session.js lines 220-233): iterate the
recognized capability names in order; a present key failing validation throws
`InvalidArgument`; valid keys are collected; unrecognized keys are skipped. -/
def validateAlwaysMatch (alwaysMatch : JsObj) : Except JsErr JsObj :=
  defaultCapabilities.foldlM (aMStep alwaysMatch) []

/-- Validation of one `firstMatch` entry (Session.js lines 249-258): every key
runs through the validator, but a failing key is silently dropped (there is no
`else` throw on this path). -/
def validateFirstMatchEntry (entry : JsObj) : JsObj :=
  entry.filter fun kv => validateCapability kv.2 kv.1

/-- The `firstMatch` default and shape check (Session.js lines 236-242):
absent becomes `[{}]`; an empty array is `InvalidArgument`. -/
def firstMatchEntries : Option (List JsObj) → Except JsErr (List JsObj)
  | none => Except.ok [[]]
  | some l => if l.isEmpty then Except.error JsErr.invalidArgument else Except.ok l

/-- `Session.mergeCapabilities` body loop over the secondary object's keys:
a key already present in `primary` throws `InvalidArgument`, otherwise the
pair is written onto the accumulated result. -/
def mergeGo (primary : JsObj) (acc : JsObj) : JsObj → Except JsErr JsObj
  | [] => Except.ok acc
  | kv :: rest =>
    if hasKey primary kv.1 then Except.error JsErr.invalidArgument
    else mergeGo primary (setKey acc kv.1 kv.2) rest

/-- `Session.mergeCapabilities` (Session.js lines 278-294): copy `primary`,
then add each `secondary` key, failing on any key present in both. -/
def mergeCapabilities (primary secondary : JsObj) : Except JsErr JsObj :=
  mergeGo primary primary secondary

/-- The implementation's fixed capability set built at the top of
`Session.matchCapabilities` (Session.js lines 297-303); `os.platform()` is
environment input and is passed in as `osPlat`. -/
def matchedCapabilitiesInit (osPlat : String) : JsObj :=
  [("browserName", JsVal.str "pluma"), ("browserVersion", JsVal.str "v1.0"),
   ("platformName", JsVal.str osPlat), ("acceptInsecureCerts", JsVal.bool false),
   ("setWindowRect", JsVal.bool false)]

/-- One iteration of the `forEach` in `Session.matchCapabilities`: the switch
clears `flag` on a mismatching browser/platform key, throws on a truthy
`setWindowRect`, and afterwards (while `flag` still holds) copies the
requested key onto the matched set. -/
def matchStep (st : JsObj × Bool) (kv : String × JsVal) : Except JsErr (JsObj × Bool) :=
  let k := kv.1
  let flag' :=
    if k = "browserName" || k = "platformName" || k = "browserVersion" then
      if jsStrictEq kv.2 ((lookupVal k st.1).getD JsVal.undef) then st.2 else false
    else st.2
  if k = "setWindowRect" && truthy kv.2 then Except.error JsErr.invalidArgument
  else Except.ok (if flag' then (setKey st.1 k kv.2, flag') else (st.1, flag'))

/-- `Session.matchCapabilities` (Session.js lines 296-330): `none` models the
`null` returned when some key failed to match. -/
def matchCapabilities (osPlat : String) (caps : JsObj) : Except JsErr (Option JsObj) :=
  (caps.foldlM matchStep (matchedCapabilitiesInit osPlat, true)).map
    fun st => if st.2 then some st.1 else none

/-- One iteration of the final loop of `Session.processCapabilities`
(lines 270-273): the previous value of `matchedCapabilities` is overwritten
unconditionally, so the accumulator is ignored. -/
def stageStep (osPlat : String) (_acc : Option JsObj) (caps : JsObj) :
    Except JsErr (Option JsObj) :=
  (matchCapabilities osPlat caps).bind fun m =>
    match m with
    | none => Except.error JsErr.sessionNotCreated
    | some mc => Except.ok (some mc)

/-- The final loop of `Session.processCapabilities` (lines 269-276): match
every merged entry in order, throwing `SessionNotCreated` as soon as one
returns `null`; the variable keeps the result of the *last* iteration. -/
def stageMatch (osPlat : String) (merged : List JsObj) : Except JsErr (Option JsObj) :=
  merged.foldlM (stageStep osPlat) (none : Option JsObj)

/-- `Session.processCapabilities` (Session.js lines 195-276), starting from the
destructured `alwaysMatch` object (absent modelled as `[]`, which the source
treats identically) and the optional `firstMatch` array.  The `Option` result
models the `undefined` the source would return on an (unreachable) empty
merged list. -/
def processCapabilities (osPlat : String) (alwaysMatch : JsObj)
    (firstMatch : Option (List JsObj)) : Except JsErr (Option JsObj) := do
  let required ← validateAlwaysMatch alwaysMatch
  let entries ← firstMatchEntries firstMatch
  let merged ← (entries.map validateFirstMatchEntry).mapM (mergeCapabilities required)
  stageMatch osPlat merged

/-- First-binding-wins union of two property lists, used to state merge
results. -/
def orFirst (a b : Option JsVal) : Option JsVal :=
  match a with
  | some v => some v
  | none => b

/-! ### Element retrieval (Session.elementRetrieval, Session.js lines 332-396) -/

/-- A DOM element as observed by the location strategies. -/
structure Element where
  tag : String
  innerHTML : String
  elemId : Nat

/-- The query surface of the start node (the rendering engine is an external
collaborator; `querySelectorAll` and `getElementsByTagName` are opaque
queries). -/
structure StartNode where
  querySelectorAll : String → List Element
  getElementsByTagName : String → List Element

/-- The exception classes that can cross `elementRetrieval`'s try/catch. -/
inductive JsException where
  | invalidArgument
  | domException
  | syntaxError
  | xpathException
  | invalidSelectorError
  | unknownError
  | typeError
  deriving DecidableEq, Repr

/-- Does `hay` start with `needle`? (structurally recursive, so it evaluates
by reduction). -/
def charsStartWith : List Char → List Char → Bool
  | _, [] => true
  | [], _ :: _ => false
  | c :: cs, d :: ds => c == d && charsStartWith cs ds

/-- Does `hay` contain `needle` as a contiguous subsequence? -/
def charsContain : List Char → List Char → Bool
  | [], needle => needle.isEmpty
  | c :: rest, needle => charsStartWith (c :: rest) needle || charsContain rest needle

/-- JavaScript `String.prototype.includes` (the empty needle is contained in
every string). -/
def strIncludes (hay needle : String) : Bool :=
  charsContain hay.data needle.data

/-- JavaScript `String.prototype.trim`: strip leading and trailing
whitespace. -/
def jsTrim (s : String) : String :=
  String.mk (((s.data.dropWhile Char.isWhitespace).reverse.dropWhile
    Char.isWhitespace).reverse)

/-- The `strategyResult` array built inside `linkTextSelector` (Session.js
lines 343-349): anchors whose trimmed `innerHTML` equals the selector (exact
mode) or whose untrimmed `innerHTML` contains it (partial mode). -/
def linkTextMatches (n : StartNode) (selector : String) (part : Bool) : List Element :=
  (n.querySelectorAll "a").filter fun e =>
    if part then strIncludes e.innerHTML selector
    else jsTrim e.innerHTML == selector

/-- `linkTextSelector` (Session.js lines 341-351): it computes
`strategyResult` and then returns the captured outer `result` array instead
(line 350: `return result;`), discarding the matches.  `result` is still
empty whenever the loop runs. -/
def linkTextSelector (n : StartNode) (selector : String) (result : List Element)
    (part : Bool) : List Element :=
  let _strategyResult := linkTextMatches n selector part
  result

/-- The try/switch body of one loop iteration (Session.js lines 361-380).
`none` models `elements` being left `undefined` (the `xpath` arm assigns
nothing); the `default` arm throws `InvalidArgument`.  The `result` array
captured by `linkTextSelector` is `[]` during the loop. -/
def attemptStrategy (n : StartNode) (strategy selector : String) :
    Except JsException (Option (List Element)) :=
  if strategy = "css selector" then Except.ok (some (n.querySelectorAll selector))
  else if strategy = "link text" then
    Except.ok (some (linkTextSelector n selector [] false))
  else if strategy = "partial link text" then
    Except.ok (some (linkTextSelector n selector [] true))
  else if strategy = "tag name" then
    Except.ok (some (n.getElementsByTagName selector))
  else if strategy = "xpath" then Except.ok none
  else Except.error JsException.invalidArgument

/-- The catch clause (Session.js lines 381-387): DOM/syntax/XPath exceptions
become an "invalid selector" error, every other error — including the
`InvalidArgument` thrown by the `default` arm — becomes the unknown error.
(In the source `UnknownError` and `XPathException` are undefined identifiers,
so at runtime a `ReferenceError` surfaces; either way the original
`InvalidArgument` is replaced.) -/
def runStrategyCaught (n : StartNode) (strategy selector : String) :
    Except JsException (Option (List Element)) :=
  match attemptStrategy n strategy selector with
  | Except.ok r => Except.ok r
  | Except.error e =>
    if e = JsException.domException || e = JsException.syntaxError ||
        e = JsException.xpathException then
      Except.error JsException.invalidSelectorError
    else Except.error JsException.unknownError

/-- A minimal model of `new Date(string)`: only all-digit strings (a year)
parse; anything else — in particular the concatenation of a function's source
text with a number — is an Invalid Date (`none`, time value NaN). -/
def jsDateParse (s : String) : Option Int :=
  if s.data ≠ [] ∧ s.data.all Char.isDigit then
    some (Int.ofNat ((s.toNat?).getD 0))
  else none

/-- The source text JavaScript produces for `Date.prototype.getTime` when the
function object (not its call result) is coerced to a string. -/
def getTimeFunSource : String := "function getTime() \x7b [native code] \x7d"

/-- The deadline computed at Session.js line 333:
`new Date(new Date().getTime + this.timeouts.implicit)`.  `getTime` is
referenced without parentheses, so `+` string-concatenates the function source
with the timeout and the resulting `Date` is Invalid (`none`) for every
implicit timeout value. -/
def elementRetrievalEndTime (implicitMs : Int) : Option Int :=
  jsDateParse (getTimeFunSource ++ toString implicitMs)

/-- The do/while loop (Session.js lines 360-388).  `clock i` is the time
`new Date()` would report when the condition is evaluated after attempt `i`;
the comparison `endTime > new Date()` is false whenever `endTime` is an
Invalid Date (NaN comparisons are false).  `fuel` bounds the retries the
model unrolls; every theorem below quantifies over all fuel values.
Evaluating `elements.length` on `undefined` is a TypeError. -/
def retrievalLoop (n : StartNode) (strategy selector : String)
    (endTime : Option Int) (clock : Nat → Int) :
    Nat → Nat → Except JsException (Nat × Option (List Element))
  | fuel, i =>
    match runStrategyCaught n strategy selector with
    | Except.error e => Except.error e
    | Except.ok elements =>
      match endTime with
      | none => Except.ok (i + 1, elements)
      | some t =>
        if clock (i + 1) < t then
          match elements with
          | none => Except.error JsException.typeError
          | some es =>
            if es.length < 1 then
              match fuel with
              | 0 => Except.ok (i + 1, elements)
              | fuel' + 1 =>
                retrievalLoop n strategy selector (some t) clock fuel' (i + 1)
            else Except.ok (i + 1, elements)
        else Except.ok (i + 1, elements)

/-- `Session.elementRetrieval` (Session.js lines 332-396): run the loop, then
wrap the found elements (the final `elements.forEach` over an `undefined`
`elements` is a TypeError).  Returns the number of strategy attempts made
together with the elements of the last attempt. -/
def elementRetrieval (fuel : Nat) (clock : Nat → Int) (implicitMs : Int)
    (n : StartNode) (strategy selector : String) :
    Except JsException (Nat × List Element) :=
  match retrievalLoop n strategy selector (elementRetrievalEndTime implicitMs)
      clock fuel 0 with
  | Except.error e => Except.error e
  | Except.ok (_attempts, none) => Except.error JsException.typeError
  | Except.ok (attempts, some es) => Except.ok (attempts, es)

/-- A start node whose queries match nothing. -/
def emptyStartNode : StartNode :=
  { querySelectorAll := fun _ => [], getElementsByTagName := fun _ => [] }

/-- An anchor element with rendered text `"foo"`. -/
def fooAnchor : Element := { tag := "a", innerHTML := "foo", elemId := 1 }

/-- A document containing exactly one anchor, `fooAnchor`. -/
def anchorStartNode : StartNode :=
  { querySelectorAll := fun s => if s = "a" then [fooAnchor] else [],
    getElementsByTagName := fun s => if s = "a" then [fooAnchor] else [] }

/-- The strategy names recognized by the switch in `elementRetrieval`. -/
def recognizedStrategies : List String :=
  ["css selector", "link text", "partial link text", "tag name", "xpath"]

/-! ### Cookie store (Browser.ts lines 148-264, CookieValidator) -/

/-- `Date.prototype.getTime` applied to `new Date(x)` for the values that can
reach `getCookies`: a number passes through (milliseconds), a parseable date
string gives its time value, everything else — in particular `undefined` —
gives an Invalid Date whose time value is NaN. -/
def jsDateGetTime : Option JsVal → JsVal
  | some (JsVal.num n) => JsVal.num n
  | some (JsVal.str s) =>
    match jsDateParse s with
    | some t => JsVal.num t
    | none => JsVal.nan
  | _ => JsVal.nan

/-- The per-cookie body of `Browser.getCookies` (Browser.ts lines 246-259):
start from `{name: '', value: ''}`, rename `key` to `name`, handle `expires`
specially — note the source reads `currentCookie[key]` (the freshly built
result object, which never has an `expires` binding) rather than
`cookie[key]` — copy every other field, then delete `creation`. -/
def getCookieTransform (cookie : JsObj) : JsObj :=
  let start : JsObj := [("name", JsVal.str ""), ("value", JsVal.str "")]
  let cur := cookie.foldl
    (fun cur kv =>
      if kv.1 = "key" then setKey cur "name" kv.2
      else if kv.1 = "expires" then
        setKey cur "expiry" (jsDateGetTime (lookupVal kv.1 cur))
      else setKey cur kv.1 kv.2)
    start
  deleteKey cur "creation"

/-- `Browser.getCookies` (Browser.ts lines 241-264) applied to the serialized
jar's cookie list (the jar itself is the external tough-cookie library; its
serialization is the input here). -/
def getCookies (jarCookies : List JsObj) : List JsObj :=
  jarCookies.map getCookieTransform

/-- A serialized jar cookie as tough-cookie produces it: internal `key` field,
an ISO `expires` string, and bookkeeping `creation`. -/
def sampleJarCookie : JsObj :=
  [("key", JsVal.str "a"), ("value", JsVal.str "b"),
   ("expires", JsVal.str "2025-01-01T00:00:00.000Z"),
   ("domain", JsVal.str "example.com"), ("path", JsVal.str "/"),
   ("creation", JsVal.str "2024-01-01T00:00:00.000Z")]

/-- `utils.isString`. -/
def isStringV : JsVal → Bool
  | JsVal.str _ => true
  | _ => false

/-- `utils.isBoolean`. -/
def isBooleanV : JsVal → Bool
  | JsVal.bool _ => true
  | _ => false

/-- `CookieValidator.isValidName`: a non-empty string (an absent or undefined
name is not a string). -/
def isValidName : Option JsVal → Bool
  | some (JsVal.str s) => s != ""
  | _ => false

/-- `CookieValidator.isValidValue`. -/
def isValidValue : Option JsVal → Bool
  | some v => isStringV v
  | none => false

/-- `CookieValidator.isValidSecure`: `undefined` (absent or explicitly
undefined) or a boolean. -/
def isValidSecure : Option JsVal → Bool
  | none => true
  | some JsVal.undef => true
  | some v => isBooleanV v

/-- `CookieValidator.isValidHttpOnly`. -/
def isValidHttpOnly : Option JsVal → Bool
  | none => true
  | some JsVal.undef => true
  | some v => isBooleanV v

/-- `CookieValidator.isValidExpiry`: `undefined` or an integer in
`[0, Number.MAX_SAFE_INTEGER]`. -/
def isValidExpiry : Option JsVal → Bool
  | none => true
  | some JsVal.undef => true
  | some (JsVal.num n) => decide (0 ≤ n) && decide (n ≤ 2 ^ 53 - 1)
  | some _ => false

/-- `CookieValidator.isValidCookie`. -/
def isValidCookie (cookie : JsObj) : Bool :=
  isValidName (lookupVal "name" cookie) && isValidValue (lookupVal "value" cookie) &&
    (isValidHttpOnly (lookupVal "httpOnly" cookie) &&
      isValidSecure (lookupVal "secure" cookie) &&
      isValidExpiry (lookupVal "expiry" cookie))

/-- `Browser.isValidScheme` (Browser.ts lines 185-191). -/
def isValidScheme (scheme : String) : Bool :=
  ["http", "https", "ftp", "about"].contains scheme

/-- `s.charAt(0) === '.'`. -/
def startsWithDot (s : String) : Bool :=
  match s.data with
  | c :: _ => c == '.'
  | [] => false

/-- `s.replace(/^\./, '')`: strip one leading dot, if present. -/
def stripLeadingDot (s : String) : String :=
  if startsWithDot s then String.mk (s.data.drop 1) else s

/-- `Browser.isCookieDomainDotPrefixed` (Browser.ts lines 178-180):
`cookie.domain && cookie.domain.charAt(0) === '.'`.  Only a string domain can
satisfy it (on a non-string truthy domain `charAt` would crash; such inputs do
not occur here). -/
def isCookieDomainDotPrefixed (cookie : JsObj) : Bool :=
  match lookupVal "domain" cookie with
  | some (JsVal.str s) => truthy (JsVal.str s) && startsWithDot s
  | _ => false

/-- `Browser.cloneCookieWithoutDomainDotPrefix` (Browser.ts lines 166-173):
`{...cookie, domain: cookie.domain.replace(/^\./, '')}` — one leading dot is
stripped, every other field passes through. -/
def cloneCookieStripDomainDot (cookie : JsObj) : JsObj :=
  match lookupVal "domain" cookie with
  | some (JsVal.str s) => setKey cookie "domain" (JsVal.str (stripLeadingDot s))
  | _ => cookie

/-- `Browser.createCookieJarOptions` (Browser.ts lines 148-161):
`{...OPTIONAL_FIELD_DEFAULTS, ...cookie}` — W3C defaults first, then the
cookie's own fields override them key for key. -/
def createCookieJarOptions (cookie : JsObj) (activeDomain : String) : JsObj :=
  cookie.foldl (fun acc kv => setKey acc kv.1 kv.2)
    [("domain", JsVal.str activeDomain), ("path", JsVal.str "/"),
     ("secure", JsVal.bool false), ("httpOnly", JsVal.bool false)]

/-- The cookie record stored in the jar.  Modelled after the external
tough-cookie `Cookie` constructor, which copies the recognized cookie fields
from its options object and ignores unrecognized keys (such as the array
index `"0"` produced by spreading an array into the options). -/
structure StoredCookie where
  key : Option JsVal
  value : Option JsVal
  expires : Option JsVal
  domain : Option JsVal
  path : Option JsVal
  secure : Option JsVal
  httpOnly : Option JsVal

/-- The tough-cookie `Cookie` constructor over an options object. -/
def mkToughCookie (args : JsObj) : StoredCookie :=
  { key := lookupVal "key" args, value := lookupVal "value" args,
    expires := lookupVal "expires" args, domain := lookupVal "domain" args,
    path := lookupVal "path" args, secure := lookupVal "secure" args,
    httpOnly := lookupVal "httpOnly" args }

/-- `new Date(expires)` for the values reaching `addCookie`'s constructor
call. -/
def jsNewDate (v : JsVal) : JsVal :=
  match v with
  | JsVal.num n => JsVal.obj [("dateValue", JsVal.num n)]
  | _ => JsVal.obj [("dateValue", JsVal.nan)]

/-- `Browser.addCookie` (Browser.ts lines 196-236) from the scheme check on
(the active URL/domain are inputs).  The constructor options are
`{key, ...(expires ? [new Date(expires)] : []), ...remainingFields}`: spreading
the *array* contributes the index property `"0"`, not an `expires` field, so a
provided expiry never reaches the stored cookie.  The jar write callback
(`UnableToSetCookie`) is outside this model. -/
def addCookie (activeDomain scheme : String) (cookie : JsObj) :
    Except JsErr StoredCookie :=
  if !isValidScheme scheme then Except.error JsErr.invalidArgument
  else
    let shallowClonedCookie :=
      if isCookieDomainDotPrefixed cookie then cloneCookieStripDomainDot cookie
      else cookie
    if !isValidCookie shallowClonedCookie then Except.error JsErr.invalidArgument
    else
      let opts := createCookieJarOptions shallowClonedCookie activeDomain
      let keyV := (lookupVal "name" opts).getD JsVal.undef
      let expiresV := (lookupVal "expiry" opts).getD JsVal.undef
      let remainingFields := opts.filter fun kv => kv.1 != "name" && kv.1 != "expiry"
      let ctorArgs := remainingFields.foldl (fun acc kv => setKey acc kv.1 kv.2)
        ([("key", keyV)] ++
          (if truthy expiresV then [("0", jsNewDate expiresV)] else []))
      Except.ok (mkToughCookie ctorArgs)

/-! ### Browser constructor options (Browser.ts lines 28-42) -/

/-- The built-in `browserOptions` defaults in the `Browser` constructor. -/
def defaultBrowserOptions : JsObj :=
  [("runScripts", JsVal.str ""), ("strictSSL", JsVal.bool true),
   ("unhandledPromptBehaviour", JsVal.str "dismiss and notify"),
   ("rejectPublicSuffixes", JsVal.bool false)]

/-- One iteration of the constructor's `forEach`:
`if (capabilities[option]) browserOptions[option] = capabilities[option];` —
the requested value overrides the default only when truthy (an absent key
reads as `undefined`, which is falsy). -/
def browserOptionStep (capabilities : JsObj) (opts : JsObj) (option : String) : JsObj :=
  if truthy ((lookupVal option capabilities).getD JsVal.undef) then
    setKey opts option ((lookupVal option capabilities).getD JsVal.undef)
  else opts

/-- The `browserOptions` record the `Browser` constructor hands to
`BrowserConfig`, after folding the requested capabilities over the
defaults. -/
def buildBrowserOptions (capabilities : JsObj) : JsObj :=
  (defaultBrowserOptions.map Prod.fst).foldl (browserOptionStep capabilities)
    defaultBrowserOptions

/-! ### Theorems -/

theorem lookupVal_setKey_self (o : JsObj) (k : String) (v : JsVal) :
    lookupVal k (setKey o k v) = some v := by
  induction o with
  | nil => simp [setKey, lookupVal]
  | cons kv rest ih =>
    obtain ⟨k0, v0⟩ := kv
    by_cases h : k0 = k
    · simp [setKey, lookupVal, h]
    · simp [setKey, lookupVal, h, ih]

theorem lookupVal_setKey_ne (o : JsObj) (k k' : String) (v : JsVal) (h : k ≠ k') :
    lookupVal k (setKey o k' v) = lookupVal k o := by
  induction o with
  | nil => simp [setKey, lookupVal, Ne.symm h]
  | cons kv rest ih =>
    obtain ⟨k0, v0⟩ := kv
    by_cases hk : k0 = k'
    · simp [setKey, lookupVal, hk, Ne.symm h]
    · by_cases hk2 : k0 = k
      · simp [setKey, lookupVal, hk, hk2, h]
      · simp [setKey, lookupVal, hk, hk2, ih]

theorem lookupVal_append (k : String) (p s : JsObj) :
    lookupVal k (p ++ s) =
      ((lookupVal k p).rec (lookupVal k s) fun v => some v : Option JsVal) := by
  induction p with
  | nil => simp [lookupVal]
  | cons kv rest ih =>
    by_cases h : kv.1 = k
    · simp [lookupVal, h]
    · simpa [lookupVal, h] using ih

theorem setKey_eq_append (o : JsObj) (k : String) (v : JsVal)
    (h : hasKey o k = false) : setKey o k v = o ++ [(k, v)] := by
  induction o with
  | nil => simp [setKey]
  | cons kv rest ih =>
    simp only [hasKey, List.any_cons, Bool.or_eq_false_iff, beq_eq_false_iff_ne] at h
    simp [setKey, h.1, ih (by simp [hasKey, h.2])]

theorem hasKey_append (o o' : JsObj) (k : String) :
    hasKey (o ++ o') k = (hasKey o k || hasKey o' k) := by
  simp [hasKey]

theorem lookupVal_eq_some_of_mem (k : String) (v : JsVal) (s : JsObj)
    (hnd : (s.map Prod.fst).Nodup) (hmem : (k, v) ∈ s) :
    lookupVal k s = some v := by
  induction s with
  | nil => simp at hmem
  | cons kv rest ih =>
    simp only [List.map_cons, List.nodup_cons] at hnd
    rcases List.mem_cons.mp hmem with h | h
    · simp [lookupVal, h.symm]
    · have hk : kv.1 ≠ k := by
        intro he
        exact hnd.1 (he ▸ (List.mem_map.mpr ⟨(k, v), h, rfl⟩))
      simp [lookupVal, hk, ih hnd.2 h]

theorem mem_of_lookupVal_eq_some (k : String) (v : JsVal) (s : JsObj)
    (h : lookupVal k s = some v) : (k, v) ∈ s := by
  induction s with
  | nil => simp [lookupVal] at h
  | cons kv rest ih =>
    obtain ⟨k0, v0⟩ := kv
    by_cases hk : k0 = k
    · subst hk
      simp only [lookupVal, if_pos rfl] at h
      cases h
      exact List.mem_cons_self _ _
    · simp only [lookupVal, hk, if_false] at h
      exact List.mem_cons_of_mem _ (ih h)

theorem lookupVal_eq_none_iff (k : String) (s : JsObj) :
    lookupVal k s = none ↔ ∀ v, (k, v) ∉ s := by
  induction s with
  | nil => simp [lookupVal]
  | cons kv rest ih =>
    obtain ⟨k0, v0⟩ := kv
    by_cases hk : k0 = k
    · subst hk
      constructor
      · intro h; simp [lookupVal] at h
      · intro h
        exact absurd (List.mem_cons_self _ _) (h v0)
    · simp only [lookupVal, hk, if_false, ih]
      constructor
      · intro h v hv
        rcases List.mem_cons.mp hv with he | he
        · exact hk (congrArg Prod.fst he.symm)
        · exact h v he
      · intro h v hv
        exact h v (List.mem_cons_of_mem _ hv)

theorem lookupVal_perm (s s' : JsObj) (hp : s.Perm s')
    (hnd : (s.map Prod.fst).Nodup) (k : String) :
    lookupVal k s = lookupVal k s' := by
  have hnd' : (s'.map Prod.fst).Nodup := ((hp.map Prod.fst).nodup_iff).mp hnd
  cases hL : lookupVal k s with
  | some v =>
    have hm : (k, v) ∈ s' := hp.mem_iff.mp (mem_of_lookupVal_eq_some k v s hL)
    exact (lookupVal_eq_some_of_mem k v s' hnd' hm).symm
  | none =>
    have h := (lookupVal_eq_none_iff k s).mp hL
    exact ((lookupVal_eq_none_iff k s').mpr fun v hv =>
      h v (hp.mem_iff.mpr hv)).symm

theorem applyTimeouts_script_absent (ts : List (String × JsVal)) :
    ∀ cur : Timeouts, ("script" ∉ ts.map Prod.fst) →
      (applyTimeouts cur ts).script = cur.script := by
  induction ts with
  | nil => intro cur _; rfl
  | cons kv rest ih =>
    intro cur h
    obtain ⟨k0, v0⟩ := kv
    simp only [List.map_cons, List.mem_cons] at h
    push_neg at h
    have hk : k0 ≠ "script" := fun he => h.1 he.symm
    cases v0 with
    | num n =>
      simp only [applyTimeouts, hk, if_false]
      by_cases h1 : k0 = "pageLoad"
      · simpa [h1] using ih _ h.2
      · by_cases h2 : k0 = "implicit"
        · simpa [h1, h2] using ih _ h.2
        · simpa [h1, h2] using ih _ h.2
    | str s => exact ih _ h.2
    | nonIntNum => exact ih _ h.2
    | nan => exact ih _ h.2
    | bool b => exact ih _ h.2
    | obj f => exact ih _ h.2
    | undef => exact ih _ h.2
    | null => exact ih _ h.2

theorem applyTimeouts_pageLoad_absent (ts : List (String × JsVal)) :
    ∀ cur : Timeouts, ("pageLoad" ∉ ts.map Prod.fst) →
      (applyTimeouts cur ts).pageLoad = cur.pageLoad := by
  induction ts with
  | nil => intro cur _; rfl
  | cons kv rest ih =>
    intro cur h
    obtain ⟨k0, v0⟩ := kv
    simp only [List.map_cons, List.mem_cons] at h
    push_neg at h
    have hk : k0 ≠ "pageLoad" := fun he => h.1 he.symm
    cases v0 with
    | num n =>
      simp only [applyTimeouts, hk]
      by_cases h1 : k0 = "script"
      · simpa [h1] using ih _ h.2
      · by_cases h2 : k0 = "implicit"
        · simpa [h1, h2] using ih _ h.2
        · simpa [h1, h2, hk] using ih _ h.2
    | str s => exact ih _ h.2
    | nonIntNum => exact ih _ h.2
    | nan => exact ih _ h.2
    | bool b => exact ih _ h.2
    | obj f => exact ih _ h.2
    | undef => exact ih _ h.2
    | null => exact ih _ h.2

theorem applyTimeouts_implicit_absent (ts : List (String × JsVal)) :
    ∀ cur : Timeouts, ("implicit" ∉ ts.map Prod.fst) →
      (applyTimeouts cur ts).implicit = cur.implicit := by
  induction ts with
  | nil => intro cur _; rfl
  | cons kv rest ih =>
    intro cur h
    obtain ⟨k0, v0⟩ := kv
    simp only [List.map_cons, List.mem_cons] at h
    push_neg at h
    have hk : k0 ≠ "implicit" := fun he => h.1 he.symm
    cases v0 with
    | num n =>
      simp only [applyTimeouts, hk]
      by_cases h1 : k0 = "script"
      · simpa [h1] using ih _ h.2
      · by_cases h2 : k0 = "pageLoad"
        · simpa [h1, h2] using ih _ h.2
        · simpa [h1, h2, hk] using ih _ h.2
    | str s => exact ih _ h.2
    | nonIntNum => exact ih _ h.2
    | nan => exact ih _ h.2
    | bool b => exact ih _ h.2
    | obj f => exact ih _ h.2
    | undef => exact ih _ h.2
    | null => exact ih _ h.2

theorem applyTimeouts_script_present (ts : List (String × JsVal))
    (hnd : (ts.map Prod.fst).Nodup) (n : Int)
    (hmem : ("script", JsVal.num n) ∈ ts) :
    ∀ cur : Timeouts, (applyTimeouts cur ts).script = n := by
  induction ts with
  | nil => simp at hmem
  | cons kv rest ih =>
    intro cur
    obtain ⟨k0, v0⟩ := kv
    simp only [List.map_cons, List.nodup_cons] at hnd
    rcases List.mem_cons.mp hmem with h | h
    · injection h with hk0 hv0
      subst hk0; subst hv0
      simp only [applyTimeouts, if_pos rfl]
      exact applyTimeouts_script_absent rest _ hnd.1
    · have hk0 : k0 ≠ "script" := by
        intro he
        exact hnd.1 (he ▸ List.mem_map.mpr ⟨_, h, rfl⟩)
      cases v0 with
      | num m =>
        simp only [applyTimeouts, hk0, if_false]
        exact ih hnd.2 h _
      | str s => exact ih hnd.2 h _
      | nonIntNum => exact ih hnd.2 h _
      | nan => exact ih hnd.2 h _
      | bool b => exact ih hnd.2 h _
      | obj f => exact ih hnd.2 h _
      | undef => exact ih hnd.2 h _
      | null => exact ih hnd.2 h _

theorem applyTimeouts_pageLoad_present (ts : List (String × JsVal))
    (hnd : (ts.map Prod.fst).Nodup) (n : Int)
    (hmem : ("pageLoad", JsVal.num n) ∈ ts) :
    ∀ cur : Timeouts, (applyTimeouts cur ts).pageLoad = n := by
  induction ts with
  | nil => simp at hmem
  | cons kv rest ih =>
    intro cur
    obtain ⟨k0, v0⟩ := kv
    simp only [List.map_cons, List.nodup_cons] at hnd
    rcases List.mem_cons.mp hmem with h | h
    · injection h with hk0 hv0
      subst hk0; subst hv0
      simp only [applyTimeouts, if_pos rfl]
      have hne : ("pageLoad" : String) ≠ "script" := by decide
      simp only [hne, if_false, if_pos rfl]
      exact applyTimeouts_pageLoad_absent rest _ hnd.1
    · have hk0 : k0 ≠ "pageLoad" := by
        intro he
        exact hnd.1 (he ▸ List.mem_map.mpr ⟨_, h, rfl⟩)
      cases v0 with
      | num m =>
        simp only [applyTimeouts, hk0]
        exact ih hnd.2 h _
      | str s => exact ih hnd.2 h _
      | nonIntNum => exact ih hnd.2 h _
      | nan => exact ih hnd.2 h _
      | bool b => exact ih hnd.2 h _
      | obj f => exact ih hnd.2 h _
      | undef => exact ih hnd.2 h _
      | null => exact ih hnd.2 h _

theorem applyTimeouts_implicit_present (ts : List (String × JsVal))
    (hnd : (ts.map Prod.fst).Nodup) (n : Int)
    (hmem : ("implicit", JsVal.num n) ∈ ts) :
    ∀ cur : Timeouts, (applyTimeouts cur ts).implicit = n := by
  induction ts with
  | nil => simp at hmem
  | cons kv rest ih =>
    intro cur
    obtain ⟨k0, v0⟩ := kv
    simp only [List.map_cons, List.nodup_cons] at hnd
    rcases List.mem_cons.mp hmem with h | h
    · injection h with hk0 hv0
      subst hk0; subst hv0
      simp only [applyTimeouts, if_pos rfl]
      have hne1 : ("implicit" : String) ≠ "script" := by decide
      have hne2 : ("implicit" : String) ≠ "pageLoad" := by decide
      simp only [hne1, hne2, if_false, if_pos rfl]
      exact applyTimeouts_implicit_absent rest _ hnd.1
    · have hk0 : k0 ≠ "implicit" := by
        intro he
        exact hnd.1 (he ▸ List.mem_map.mpr ⟨_, h, rfl⟩)
      cases v0 with
      | num m =>
        simp only [applyTimeouts, hk0]
        exact ih hnd.2 h _
      | str s => exact ih hnd.2 h _
      | nonIntNum => exact ih hnd.2 h _
      | nan => exact ih hnd.2 h _
      | bool b => exact ih hnd.2 h _
      | obj f => exact ih hnd.2 h _
      | undef => exact ih hnd.2 h _
      | null => exact ih hnd.2 h _

theorem validateTimeouts_num (k : String) (v : JsVal)
    (h : validateTimeouts k v = true) : ∃ n : Int, v = JsVal.num n := by
  cases v with
  | num n => exact ⟨n, rfl⟩
  | str s => simp [validateTimeouts] at h
  | nonIntNum => simp [validateTimeouts] at h
  | nan => simp [validateTimeouts] at h
  | bool b => simp [validateTimeouts] at h
  | obj f => simp [validateTimeouts] at h
  | undef => simp [validateTimeouts] at h
  | null => simp [validateTimeouts] at h

theorem not_mem_keys_of_lookup_timeout (k : String) (ts : List (String × JsVal))
    (h : lookupVal k ts = none) : k ∉ ts.map Prod.fst := by
  intro hmem
  obtain ⟨⟨k0, v0⟩, hin, hk⟩ := List.mem_map.mp hmem
  cases hk
  exact absurd ((lookupVal_eq_none_iff _ _).mp h v0) (by simpa using hin)

/-- Claim C2: for every partial timeouts object passed to `setTimeouts`, if any
present field fails validation (integer in `[0, 2^53-1]`) the call raises
`InvalidArgument` and no timeout field is written (the validation loop runs
before the application loop); if all present fields are valid, exactly the
provided fields are overwritten and absent fields keep their prior values. -/
theorem setTimeouts_spec (cur : Timeouts) (ts : List (String × JsVal))
    (hnd : (ts.map Prod.fst).Nodup) :
    ((∃ kv ∈ ts, validateTimeouts kv.1 kv.2 = false) →
        setTimeouts cur ts = Except.error JsErr.invalidArgument) ∧
    ((∀ kv ∈ ts, validateTimeouts kv.1 kv.2 = true) →
      ∃ t', setTimeouts cur ts = Except.ok t' ∧
        t'.script = timeoutField ts "script" cur.script ∧
        t'.pageLoad = timeoutField ts "pageLoad" cur.pageLoad ∧
        t'.implicit = timeoutField ts "implicit" cur.implicit) := by
  constructor
  · rintro ⟨kv, hmem, hbad⟩
    cases hfind : ts.find? (fun kv => !(validateTimeouts kv.1 kv.2)) with
    | none =>
      have := List.find?_eq_none.mp hfind kv hmem
      simp [hbad] at this
    | some w => simp [setTimeouts, hfind]
  · intro hall
    have hfind : ts.find? (fun kv => !(validateTimeouts kv.1 kv.2)) = none :=
      List.find?_eq_none.mpr fun kv hmem => by simp [hall kv hmem]
    refine ⟨applyTimeouts cur ts, by simp [setTimeouts, hfind], ?_, ?_, ?_⟩
    · cases hl : lookupVal "script" ts with
      | none =>
        rw [show timeoutField ts "script" cur.script = cur.script by
          simp [timeoutField, hl]]
        exact applyTimeouts_script_absent ts cur (not_mem_keys_of_lookup_timeout _ _ hl)
      | some v =>
        have hmem := mem_of_lookupVal_eq_some _ _ _ hl
        obtain ⟨n, rfl⟩ := validateTimeouts_num _ _ (hall _ hmem)
        rw [show timeoutField ts "script" cur.script = n by simp [timeoutField, hl]]
        exact applyTimeouts_script_present ts hnd n hmem cur
    · cases hl : lookupVal "pageLoad" ts with
      | none =>
        rw [show timeoutField ts "pageLoad" cur.pageLoad = cur.pageLoad by
          simp [timeoutField, hl]]
        exact applyTimeouts_pageLoad_absent ts cur (not_mem_keys_of_lookup_timeout _ _ hl)
      | some v =>
        have hmem := mem_of_lookupVal_eq_some _ _ _ hl
        obtain ⟨n, rfl⟩ := validateTimeouts_num _ _ (hall _ hmem)
        rw [show timeoutField ts "pageLoad" cur.pageLoad = n by simp [timeoutField, hl]]
        exact applyTimeouts_pageLoad_present ts hnd n hmem cur
    · cases hl : lookupVal "implicit" ts with
      | none =>
        rw [show timeoutField ts "implicit" cur.implicit = cur.implicit by
          simp [timeoutField, hl]]
        exact applyTimeouts_implicit_absent ts cur (not_mem_keys_of_lookup_timeout _ _ hl)
      | some v =>
        have hmem := mem_of_lookupVal_eq_some _ _ _ hl
        obtain ⟨n, rfl⟩ := validateTimeouts_num _ _ (hall _ hmem)
        rw [show timeoutField ts "implicit" cur.implicit = n by simp [timeoutField, hl]]
        exact applyTimeouts_implicit_present ts hnd n hmem cur

/-- Witness for C2 at a concrete input: `setTimeouts({implicit: 500})` on the
default timeouts changes only `implicit`, and `setTimeouts({pageLoad: -1})`
raises `InvalidArgument`. -/
theorem setTimeouts_spec_witness :
    setTimeouts ⟨3000, 30000, 0⟩ [("implicit", JsVal.num 500)] =
      Except.ok ⟨3000, 30000, 500⟩ ∧
    setTimeouts ⟨3000, 30000, 0⟩ [("pageLoad", JsVal.num (-1))] =
      Except.error JsErr.invalidArgument := by
  constructor
  · obtain ⟨t', heq, h1, h2, h3⟩ :=
      (setTimeouts_spec ⟨3000, 30000, 0⟩ [("implicit", JsVal.num 500)]
        (by simp)).2 (by decide)
    have ht : t' = ⟨3000, 30000, 500⟩ := by
      have h1' : t'.script = 3000 := h1
      have h2' : t'.pageLoad = 30000 := h2
      have h3' : t'.implicit = 500 := h3
      cases t'
      simp_all
    rw [← ht]; exact heq
  · exact (setTimeouts_spec ⟨3000, 30000, 0⟩ [("pageLoad", JsVal.num (-1))]
      (by simp)).1 ⟨("pageLoad", JsVal.num (-1)), by simp, by decide⟩

theorem lookupVal_append_orFirst (k : String) (p s : JsObj) :
    lookupVal k (p ++ s) = orFirst (lookupVal k p) (lookupVal k s) := by
  rw [lookupVal_append]
  cases lookupVal k p <;> rfl

theorem mergeGo_error_iff (p : JsObj) (s : JsObj) : ∀ acc,
    (mergeGo p acc s = Except.error JsErr.invalidArgument ↔
      ∃ kv ∈ s, hasKey p kv.1 = true) := by
  induction s with
  | nil => intro acc; simp [mergeGo]
  | cons kv rest ih =>
    intro acc
    by_cases h : hasKey p kv.1 = true
    · constructor
      · intro _
        exact ⟨kv, List.mem_cons_self _ _, h⟩
      · intro _
        simp [mergeGo, h]
    · simp only [mergeGo, h, if_false, Bool.false_eq_true, ih]
      constructor
      · rintro ⟨kv', hmem, hk⟩
        exact ⟨kv', List.mem_cons_of_mem _ hmem, hk⟩
      · rintro ⟨kv', hmem, hk⟩
        rcases List.mem_cons.mp hmem with he | he
        · exact absurd (he ▸ hk) h
        · exact ⟨kv', he, hk⟩

theorem mergeGo_ok (p : JsObj) (s : JsObj) :
    ∀ acc, (∀ kv ∈ s, hasKey p kv.1 = false) →
      (∀ kv ∈ s, hasKey acc kv.1 = false) →
      (s.map Prod.fst).Nodup →
      mergeGo p acc s = Except.ok (acc ++ s) := by
  induction s with
  | nil => intro acc _ _ _; simp [mergeGo]
  | cons kv rest ih =>
    intro acc hp hacc hnd
    simp only [List.map_cons, List.nodup_cons] at hnd
    have h1 : hasKey p kv.1 = false := hp kv (List.mem_cons_self _ _)
    have h2 : setKey acc kv.1 kv.2 = acc ++ [kv] := setKey_eq_append _ _ _
      (hacc kv (List.mem_cons_self _ _))
    have h3 : ∀ kv' ∈ rest, hasKey (acc ++ [kv]) kv'.1 = false := by
      intro kv' hmem
      rw [hasKey_append]
      have ha : hasKey acc kv'.1 = false := hacc kv' (List.mem_cons_of_mem _ hmem)
      have hb : hasKey [kv] kv'.1 = false := by
        simp only [hasKey, List.any_cons, List.any_nil, Bool.or_false,
          beq_eq_false_iff_ne]
        intro he
        exact hnd.1 (he ▸ List.mem_map.mpr ⟨kv', hmem, rfl⟩)
      simp [ha, hb]
    simp only [mergeGo, h1, Bool.false_eq_true, if_false, h2]
    rw [ih (acc ++ [kv]) (fun kv' h => hp kv' (List.mem_cons_of_mem _ h)) h3 hnd.2]
    simp

/-- Claim C4: for every validated alwaysMatch set `p` and validated firstMatch
entry `s`, `mergeCapabilities p s` raises `InvalidArgument` iff some key exists
in both; otherwise its result is the key-for-key union of the two maps, and the
result's lookups are invariant under permuting the entry's key order. -/
theorem mergeCapabilities_spec (p s : JsObj) (hnd : (s.map Prod.fst).Nodup) :
    (mergeCapabilities p s = Except.error JsErr.invalidArgument ↔
      ∃ kv ∈ s, hasKey p kv.1 = true) ∧
    ((∀ kv ∈ s, hasKey p kv.1 = false) →
      mergeCapabilities p s = Except.ok (p ++ s) ∧
      (∀ k, lookupVal k (p ++ s) = orFirst (lookupVal k p) (lookupVal k s)) ∧
      (∀ s', s.Perm s' → ∀ r r', mergeCapabilities p s = Except.ok r →
        mergeCapabilities p s' = Except.ok r' →
        ∀ k, lookupVal k r = lookupVal k r')) := by
  refine ⟨mergeGo_error_iff p s p, ?_⟩
  intro hdisj
  have hok : mergeCapabilities p s = Except.ok (p ++ s) :=
    mergeGo_ok p s p hdisj (fun kv h => hdisj kv h) hnd
  refine ⟨hok, fun k => lookupVal_append_orFirst k p s, ?_⟩
  intro s' hperm r r' hr hr' k
  have hnd' : (s'.map Prod.fst).Nodup := ((hperm.map Prod.fst).nodup_iff).mp hnd
  have hdisj' : ∀ kv ∈ s', hasKey p kv.1 = false := fun kv h =>
    hdisj kv (hperm.mem_iff.mpr h)
  have hok' : mergeCapabilities p s' = Except.ok (p ++ s') :=
    mergeGo_ok p s' p hdisj' (fun kv h => hdisj' kv h) hnd'
  have hr2 : r = p ++ s := by
    have := hr.symm.trans hok
    exact Except.ok.inj this
  have hr2' : r' = p ++ s' := by
    have := hr'.symm.trans hok'
    exact Except.ok.inj this
  subst hr2; subst hr2'
  rw [lookupVal_append_orFirst, lookupVal_append_orFirst,
    lookupVal_perm s s' hperm hnd k]

/-- Witness for C4 at a concrete input: merging disjoint maps yields their
union. -/
theorem mergeCapabilities_spec_witness :
    mergeCapabilities [("browserName", JsVal.str "pluma")]
        [("timeouts", JsVal.obj [])] =
      Except.ok [("browserName", JsVal.str "pluma"), ("timeouts", JsVal.obj [])] := by
  exact ((mergeCapabilities_spec [("browserName", JsVal.str "pluma")]
    [("timeouts", JsVal.obj [])] (by simp)).2 (by decide)).1

theorem stageMatch_acc_irrelevant (osPlat : String) (x : JsObj) (l : List JsObj)
    (a b : Option JsObj) :
    (x :: l).foldlM (stageStep osPlat) a = (x :: l).foldlM (stageStep osPlat) b := by
  rfl

theorem stageStep_some (osPlat : String) (a : Option JsObj) (c m : JsObj)
    (hm : matchCapabilities osPlat c = Except.ok (some m)) :
    stageStep osPlat a c = Except.ok (some m) := by
  unfold stageStep
  rw [hm]
  rfl

theorem stageStep_nomatch (osPlat : String) (a : Option JsObj) (c : JsObj)
    (hm : matchCapabilities osPlat c = Except.ok none) :
    stageStep osPlat a c = Except.error JsErr.sessionNotCreated := by
  unfold stageStep
  rw [hm]
  rfl

theorem stageMatch_all_match (osPlat : String) (merged : List JsObj)
    (hall : ∀ c ∈ merged, ∃ m, matchCapabilities osPlat c = Except.ok (some m)) :
    ∀ last, merged.getLast? = some last →
      stageMatch osPlat merged = matchCapabilities osPlat last := by
  induction merged with
  | nil => intro last h; simp at h
  | cons c rest ih =>
    intro last h
    obtain ⟨m, hm⟩ := hall c (List.mem_cons_self _ _)
    cases rest with
    | nil =>
      have hc : c = last := by simpa using h
      subst hc
      rw [hm]
      show (stageStep osPlat none c).bind
        (fun a => List.foldlM (stageStep osPlat) a []) = _
      rw [stageStep_some osPlat none c m hm]
      rfl
    | cons c2 rest' =>
      have hlast : (c2 :: rest').getLast? = some last := by
        simpa [List.getLast?_cons_cons] using h
      have ihr := ih (fun c' hc' => hall c' (List.mem_cons_of_mem _ hc')) last hlast
      show (stageStep osPlat none c).bind
        (fun a => List.foldlM (stageStep osPlat) a (c2 :: rest')) = _
      rw [stageStep_some osPlat none c m hm]
      show List.foldlM (stageStep osPlat) (some m) (c2 :: rest') = _
      rw [stageMatch_acc_irrelevant osPlat c2 rest' (some m) none]
      exact ihr

theorem stageMatch_fails (osPlat : String) (c : JsObj) (post : List JsObj)
    (hc : matchCapabilities osPlat c = Except.ok none) :
    ∀ pre : List JsObj,
      (∀ c' ∈ pre, ∃ m, matchCapabilities osPlat c' = Except.ok (some m)) →
      stageMatch osPlat (pre ++ c :: post) = Except.error JsErr.sessionNotCreated := by
  intro pre
  induction pre with
  | nil =>
    intro _
    show (stageStep osPlat none c).bind
      (fun a => List.foldlM (stageStep osPlat) a post) = _
    rw [stageStep_nomatch osPlat none c hc]
    rfl
  | cons p pre' ih =>
    intro hall
    obtain ⟨m, hm⟩ := hall p (List.mem_cons_self _ _)
    show (stageStep osPlat none p).bind
      (fun a => List.foldlM (stageStep osPlat) a (pre' ++ c :: post)) = _
    rw [stageStep_some osPlat none p m hm]
    show List.foldlM (stageStep osPlat) (some m) (pre' ++ c :: post) = _
    have hne : pre' ++ c :: post ≠ [] := by simp
    cases hpre : pre' ++ c :: post with
    | nil => exact absurd hpre hne
    | cons y ys =>
      rw [stageMatch_acc_irrelevant osPlat y ys (some m) none]
      have := ih (fun c' hc' => hall c' (List.mem_cons_of_mem _ hc'))
      rw [show stageMatch osPlat (pre' ++ c :: post) =
        List.foldlM (stageStep osPlat) none (pre' ++ c :: post) from rfl, hpre] at this
      exact this

/-- Claim C1 (amended): negotiation fails with SessionNotCreated as soon as
some merged entry fails to match, even when an earlier entry matched; when
every merged entry matches, the resolved capability set used is the match
result of the *last* merged entry, not the first. -/
theorem processCapabilities_match_policy (osPlat : String) (aM : JsObj)
    (fM : Option (List JsObj)) (required : JsObj) (entries merged : List JsObj)
    (h1 : validateAlwaysMatch aM = Except.ok required)
    (h2 : firstMatchEntries fM = Except.ok entries)
    (h3 : (entries.map validateFirstMatchEntry).mapM (mergeCapabilities required) =
      Except.ok merged) :
    ((∀ c ∈ merged, ∃ m, matchCapabilities osPlat c = Except.ok (some m)) →
      ∀ last, merged.getLast? = some last →
        processCapabilities osPlat aM fM = matchCapabilities osPlat last) ∧
    (∀ pre c post, merged = pre ++ c :: post →
      (∀ c' ∈ pre, ∃ m, matchCapabilities osPlat c' = Except.ok (some m)) →
      matchCapabilities osPlat c = Except.ok none →
      processCapabilities osPlat aM fM = Except.error JsErr.sessionNotCreated) := by
  have hpc : processCapabilities osPlat aM fM = stageMatch osPlat merged := by
    unfold processCapabilities
    rw [h1]
    show (firstMatchEntries fM).bind _ = _
    rw [h2]
    show ((entries.map validateFirstMatchEntry).mapM (mergeCapabilities required)).bind
      _ = _
    rw [h3]
    rfl
  constructor
  · intro hall last hlast
    rw [hpc]
    exact stageMatch_all_match osPlat merged hall last hlast
  · intro pre c post hsplit hpre hc
    rw [hpc, hsplit]
    exact stageMatch_fails osPlat c post hc pre hpre

/-- Counterexample to claim C1 as stated: the first merged entry (the empty
one) matches the implementation's capabilities, yet `processCapabilities`
fails with SessionNotCreated because the second entry does not match. -/
theorem processCapabilities_first_match_cex :
    matchCapabilities "linux" [] =
      Except.ok (some (matchedCapabilitiesInit "linux")) ∧
    processCapabilities "linux" []
        (some [[], [("browserName", JsVal.str "chrome")]]) =
      Except.error JsErr.sessionNotCreated :=
  ⟨rfl, rfl⟩

/-- Witness for the amended C1 theorem at a concrete input: with two merged
entries that both match, the result is the last entry's match result. -/
theorem processCapabilities_match_policy_witness :
    processCapabilities "linux" [] (some [[], []]) =
      Except.ok (some (matchedCapabilitiesInit "linux")) := by
  have hall : ∀ c ∈ [([] : JsObj), []], ∃ m,
      matchCapabilities "linux" c = Except.ok (some m) := by
    intro c hc
    rcases List.mem_cons.mp hc with h | h
    · exact ⟨matchedCapabilitiesInit "linux", by rw [h]; rfl⟩
    · have : c = [] := by simpa using h
      exact ⟨matchedCapabilitiesInit "linux", by rw [this]; rfl⟩
  have h := (processCapabilities_match_policy "linux" [] (some [[], []])
    [] [[], []] [[], []] rfl rfl rfl).1 hall [] rfl
  rw [h]
  rfl

theorem exceptOkBind {ε α β : Type} (a : α) (f : α → Except ε β) :
    (Except.ok a : Except ε α) >>= f = f a := rfl

theorem exceptErrorBind {ε α β : Type} (e : ε) (f : α → Except ε β) :
    (Except.error e : Except ε α) >>= f = Except.error e := rfl

theorem foldlM_aMStep_bad (k : String) (v : JsVal)
    (hv : validateCapability v k = false) :
    ∀ (keys : List String) (acc : JsObj), k ∈ keys →
      keys.foldlM (aMStep [(k, v)]) acc = Except.error JsErr.invalidArgument := by
  intro keys
  induction keys with
  | nil => intro acc h; simp at h
  | cons key rest ih =>
    intro acc hmem
    by_cases hk : key = k
    · subst hk
      show (aMStep [(key, v)] acc key).bind _ = _
      rw [show aMStep [(key, v)] acc key = Except.error JsErr.invalidArgument by
        simp [aMStep, lookupVal, hv]]
      rfl
    · have hlook : lookupVal key [(k, v)] = none := by
        have hne : k ≠ key := fun h => hk h.symm
        simp [lookupVal, hne]
      show (aMStep [(k, v)] acc key).bind _ = _
      rw [show aMStep [(k, v)] acc key = Except.ok acc by simp [aMStep, hlook]]
      have hmem' : k ∈ rest := by
        rcases List.mem_cons.mp hmem with h | h
        · exact absurd h.symm hk
        · exact h
      exact ih acc hmem'

/-- Claim C5 (amended): keys of firstMatch entries run through the same
per-key validator as alwaysMatch keys, but a recognized key failing validation
is silently dropped from its entry — negotiation proceeds exactly as if the
entry had not contained the key — whereas the same failing pair in
`alwaysMatch` raises `InvalidArgument`. -/
theorem firstMatch_invalid_key_dropped (osPlat : String) (fM : Option (List JsObj))
    (k : String) (v : JsVal) (hk : k ∈ defaultCapabilities)
    (hv : validateCapability v k = false) :
    processCapabilities osPlat [(k, v)] fM = Except.error JsErr.invalidArgument ∧
    ∀ aM : JsObj, processCapabilities osPlat aM (some [[(k, v)]]) =
      processCapabilities osPlat aM (some [[]]) := by
  have hentry : validateFirstMatchEntry [(k, v)] = ([] : JsObj) := by
    simp [validateFirstMatchEntry, List.filter_cons, hv]
  constructor
  · have hbad : validateAlwaysMatch [(k, v)] = Except.error JsErr.invalidArgument :=
      foldlM_aMStep_bad k v hv defaultCapabilities [] hk
    unfold processCapabilities
    rw [hbad]
    rfl
  · intro aM
    unfold processCapabilities
    cases hreq : validateAlwaysMatch aM with
    | error e => rfl
    | ok required =>
      simp only [exceptOkBind]
      rw [show firstMatchEntries (some [[(k, v)]]) = Except.ok [[(k, v)]] from rfl]
      rw [show firstMatchEntries (some [[]]) = Except.ok [[]] from rfl]
      simp only [exceptOkBind, List.map_cons, List.map_nil, hentry]
      rfl

/-- Counterexample to claim C5 as stated: a recognized firstMatch key with an
invalid value (a string where `acceptInsecureCerts` requires a boolean) does
not fail negotiation — the key is dropped and the session resolves. -/
theorem firstMatch_invalid_key_cex :
    processCapabilities "linux" []
        (some [[("acceptInsecureCerts", JsVal.str "yes")]]) =
      Except.ok (some (matchedCapabilitiesInit "linux")) :=
  rfl

/-- Witness for the amended C5 theorem at a concrete failing pair. -/
theorem firstMatch_invalid_key_dropped_witness :
    processCapabilities "linux" [("acceptInsecureCerts", JsVal.str "yes")] none =
      Except.error JsErr.invalidArgument ∧
    processCapabilities "linux" [] (some [[("acceptInsecureCerts", JsVal.str "yes")]]) =
      processCapabilities "linux" [] (some [[]]) := by
  have h := firstMatch_invalid_key_dropped "linux" none "acceptInsecureCerts"
    (JsVal.str "yes") (by decide) (by decide)
  exact ⟨h.1, h.2 []⟩

theorem retrievalLoop_endTime_none (n : StartNode) (strategy selector : String)
    (clock : Nat → Int) (fuel i : Nat) :
    retrievalLoop n strategy selector none clock fuel i =
      match runStrategyCaught n strategy selector with
      | Except.error e => Except.error e
      | Except.ok elements => Except.ok (i + 1, elements) := by
  cases hrun : runStrategyCaught n strategy selector with
  | error e => simp only [retrievalLoop, hrun]
  | ok elements => simp only [retrievalLoop, hrun]

theorem elementRetrievalEndTime_eq_none (imp : Int) :
    elementRetrievalEndTime imp = none := by
  unfold elementRetrievalEndTime jsDateParse
  rw [if_neg]
  intro h
  have hall := h.2
  rw [String.data_append, List.all_append] at hall
  have hfun : getTimeFunSource.data.all Char.isDigit = false := by decide
  simp [hfun] at hall

/-- Claim C3 (code-bug evaluation): the deadline at line 333 is built from
`new Date().getTime` *without calling it*, producing an Invalid Date, so the
`endTime > new Date()` condition is always false: for every implicit timeout,
clock behaviour and fuel, exactly one strategy attempt runs and its result is
returned immediately — in particular a zero-match css selector with implicit
timeout 200ms returns an empty sequence at once instead of retrying until the
deadline. -/
theorem elementRetrieval_single_attempt (fuel : Nat) (clock : Nat → Int)
    (imp : Int) (n : StartNode) (sel : String) :
    elementRetrieval fuel clock imp n "css selector" sel =
      Except.ok (1, n.querySelectorAll sel) ∧
    elementRetrieval 1000 (fun i => (i : Int) * 50) 200 emptyStartNode
      "css selector" "#missing" = Except.ok (1, []) := by
  constructor
  · unfold elementRetrieval
    rw [elementRetrievalEndTime_eq_none, retrievalLoop_endTime_none]
    rfl
  · rfl

/-- Claim C7 (code-bug evaluation): `linkTextSelector` computes the matching
anchors into `strategyResult` but returns the captured outer `result` array
(line 350), so both link-text strategies always yield the empty sequence, even
when the intended `strategyResult` computation finds matches. -/
theorem linkText_returns_outer_result (fuel : Nat) (clock : Nat → Int)
    (imp : Int) (n : StartNode) (sel : String) :
    (elementRetrieval fuel clock imp n "link text" sel = Except.ok (1, []) ∧
     elementRetrieval fuel clock imp n "partial link text" sel =
       Except.ok (1, [])) ∧
    (linkTextMatches anchorStartNode "foo" false = [fooAnchor] ∧
     elementRetrieval 3 (fun _ => 0) 0 anchorStartNode "link text" "foo" =
       Except.ok (1, [])) := by
  refine ⟨⟨?_, ?_⟩, rfl, rfl⟩
  · unfold elementRetrieval
    rw [elementRetrievalEndTime_eq_none, retrievalLoop_endTime_none]
    rfl
  · unfold elementRetrieval
    rw [elementRetrievalEndTime_eq_none, retrievalLoop_endTime_none]
    rfl

/-- Claim C6 (amended): an unrecognized strategy string makes the `default`
arm throw `InvalidArgument` during the first loop iteration — before any
retry — but the surrounding catch replaces it, so the call fails with the
generic unknown error, not with `InvalidArgument` and not with
"invalid selector". -/
theorem elementRetrieval_unknown_strategy (fuel : Nat) (clock : Nat → Int)
    (imp : Int) (n : StartNode) (strategy sel : String)
    (h : strategy ∉ recognizedStrategies) :
    elementRetrieval fuel clock imp n strategy sel =
      Except.error JsException.unknownError := by
  simp only [recognizedStrategies, List.mem_cons, List.not_mem_nil, or_false,
    not_or] at h
  obtain ⟨h1, h2, h3, h4, h5⟩ := h
  have hatt : attemptStrategy n strategy sel =
      Except.error JsException.invalidArgument := by
    unfold attemptStrategy
    rw [if_neg h1, if_neg h2, if_neg h3, if_neg h4, if_neg h5]
  have hrun : runStrategyCaught n strategy sel =
      Except.error JsException.unknownError := by
    unfold runStrategyCaught
    rw [hatt]
    rfl
  unfold elementRetrieval
  rw [elementRetrievalEndTime_eq_none, retrievalLoop_endTime_none, hrun]

/-- Counterexample to claim C6 as stated: with the unrecognized strategy
`"shadow dom"` the call fails with the unknown error, not `InvalidArgument`. -/
theorem elementRetrieval_unknown_strategy_cex :
    elementRetrieval 5 (fun _ => 0) 200 emptyStartNode "shadow dom" "x" =
      Except.error JsException.unknownError ∧
    elementRetrieval 5 (fun _ => 0) 200 emptyStartNode "shadow dom" "x" ≠
      Except.error JsException.invalidArgument := by
  refine ⟨rfl, ?_⟩
  intro h
  rw [show elementRetrieval 5 (fun _ => 0) 200 emptyStartNode "shadow dom" "x" =
    Except.error JsException.unknownError from rfl] at h
  exact absurd (Except.error.inj h) (by decide)

/-- Witness for the amended C6 theorem at a concrete unrecognized strategy. -/
theorem elementRetrieval_unknown_strategy_witness :
    ("magic" ∉ recognizedStrategies) ∧
    elementRetrieval 7 (fun i => (i : Int)) 100 emptyStartNode "magic" "y" =
      Except.error JsException.unknownError :=
  ⟨by decide, elementRetrieval_unknown_strategy 7 (fun i => (i : Int)) 100
    emptyStartNode "magic" "y" (by decide)⟩

/-- Claim C8 (code-bug evaluation): `getCookies` does rename the jar's `key`
field to `name` and drops `creation`, but the exposed `expiry` is NaN, not an
integer count of seconds since epoch: line 254 builds the date from
`currentCookie[key]` — the freshly initialized result object, which has no
`expires` binding — instead of `cookie[key]` (and `getTime()` would be
milliseconds, not seconds, even with the right source). -/
theorem getCookies_expiry_nan :
    getCookies [sampleJarCookie] =
      [[("name", JsVal.str "a"), ("value", JsVal.str "b"),
        ("expiry", JsVal.nan), ("domain", JsVal.str "example.com"),
        ("path", JsVal.str "/")]] :=
  rfl

/-- Claim C9 (code-bug evaluation): the dot-prefixed domain is stripped and
name/value/defaults are stored as the claim says — the stored cookie has key
`"x"` and domain `"example.com"`, so the `getCookies` example holds — but the
supplied `expiry` does *not* pass through unchanged: the array spread at
Browser.ts line 227 produces an options key `"0"` instead of `expires`, so the
stored cookie has no expiration at all. -/
theorem addCookie_expiry_dropped :
    addCookie "example.com" "http"
        [("name", JsVal.str "x"), ("value", JsVal.str "y"),
         ("domain", JsVal.str ".example.com"), ("expiry", JsVal.num 1000)] =
      Except.ok
        { key := some (JsVal.str "x"), value := some (JsVal.str "y"),
          expires := none, domain := some (JsVal.str "example.com"),
          path := some (JsVal.str "/"), secure := some (JsVal.bool false),
          httpOnly := some (JsVal.bool false) } :=
  rfl

theorem browserOptionStep_fold_preserves (caps : JsObj) (opt : String) (v : JsVal)
    (hv : lookupVal opt caps = some v) (hf : truthy v = false) :
    ∀ (keys : List String) (opts : JsObj),
      lookupVal opt (keys.foldl (browserOptionStep caps) opts) =
        lookupVal opt opts := by
  intro keys
  induction keys with
  | nil => intro opts; rfl
  | cons key rest ih =>
    intro opts
    rw [List.foldl_cons, ih]
    by_cases hk : key = opt
    · subst hk
      simp only [browserOptionStep, hv, Option.getD_some, hf, Bool.false_eq_true,
        if_false]
    · unfold browserOptionStep
      cases htr : truthy ((lookupVal key caps).getD JsVal.undef) with
      | false => simp
      | true =>
        simp only [if_true]
        exact lookupVal_setKey_ne opts opt key _ (fun h => hk h.symm)

/-- Claim C10: in the `Browser` constructor a requested capability option
overrides the built-in default only when its value is truthy: whenever one of
the four options is present with a falsy value, the constructed options keep
the default — so a client cannot disable a default-true option such as
`strictSSL`. -/
theorem browserOptions_falsy_keeps_default (caps : JsObj) (opt : String) (v : JsVal)
    (_hmem : opt ∈ defaultBrowserOptions.map Prod.fst)
    (hv : lookupVal opt caps = some v) (hf : truthy v = false) :
    lookupVal opt (buildBrowserOptions caps) =
      lookupVal opt defaultBrowserOptions := by
  unfold buildBrowserOptions
  exact browserOptionStep_fold_preserves caps opt v hv hf _ _

/-- Witness for C10: `strictSSL: false` is ignored and the default `true`
survives. -/
theorem browserOptions_falsy_keeps_default_witness :
    lookupVal "strictSSL" (buildBrowserOptions [("strictSSL", JsVal.bool false)]) =
      some (JsVal.bool true) := by
  have h := browserOptions_falsy_keeps_default [("strictSSL", JsVal.bool false)]
    "strictSSL" (JsVal.bool false) (by decide) rfl rfl
  rw [h]
  rfl
